import Mathlib

/-!
Verification of the `dbarchiving` table-archiving tool.

The Go source is shallowly embedded: the database is an association list
from table names to lists of rows, each row carrying the value of the
selected date column (`none` models SQL NULL) plus an opaque payload.
Clock reads (`time.Now()`) are supplied by the run environment: the
pipeline reads the clock once inside `countRecords` and a second time in
`archiveTable` before the copy step, exactly as the source does.
Driver-level failures that the source reacts to (a failing
`INSERT ... SELECT`, a failing compensating `DROP TABLE`) are injected
through environment flags; all other queries are modelled as succeeding.
-/

set_option autoImplicit false

namespace DbArchiving

/-- One row of the table being archived: the value of the detected date
column (`none` = SQL NULL; timestamps are abstracted to integers, in day
units so that `time.Now().AddDate(0, 0, -days)` becomes subtraction) and
an opaque payload identifying the row. -/
structure Row where
  date : Option Int
  payload : Nat
deriving DecidableEq, Repr

abbrev Table := List Row

/-- The database: an association list from table names to row lists,
looked up by first match (names are unique in a real catalog; the
pipeline only ever creates a table after checking the name is free). -/
abbrev DB := List (String × Table)

/-- Catalog lookup (first entry with the given name). -/
def getTable : DB → String → Option Table
  | [], _ => none
  | (m, t) :: db, n => if m = n then some t else getTable db n

/-- Apply `f` to the rows of every entry named `n` (DML touches the named
table wherever it sits in the catalog). -/
def updateTable : DB → String → (Table → Table) → DB
  | [], _, _ => []
  | (m, t) :: db, n, f =>
    if m = n then (m, f t) :: updateTable db n f else (m, t) :: updateTable db n f

/-- Rename every entry named `old` to `new` (guards are checked by the
caller, mirroring the server rejecting `RENAME TABLE` when the source is
missing or the target exists). -/
def renameRaw : DB → String → String → DB
  | [], _, _ => []
  | (m, t) :: db, old, new =>
    if m = old then (new, t) :: renameRaw db old new else (m, t) :: renameRaw db old new

/-- `CREATE TABLE`: fails (like the server) if the name is taken,
otherwise adds an empty table. -/
def execCreateTable (db : DB) (n : String) : Option DB :=
  if (getTable db n).isSome then none else some ((n, []) :: db)

/-- `RENAME TABLE old TO new`: fails if `old` is absent or `new` exists. -/
def execRenameTable (db : DB) (old new : String) : Option DB :=
  if (getTable db old).isNone then none
  else if (getTable db new).isSome then none
  else some (renameRaw db old new)

/-- `DROP TABLE IF EXISTS n`: removes the entries named `n`. -/
def dropTableIfExists : DB → String → DB
  | [], _ => []
  | (m, t) :: db, n =>
    if m = n then dropTableIfExists db n else (m, t) :: dropTableIfExists db n

/-- The predicate of `WHERE dateColumn < ?`: SQL comparison with NULL is
not true, so a NULL date never satisfies it. -/
def dateLt (cutoff : Int) (r : Row) : Bool :=
  match r.date with
  | some d => decide (d < cutoff)
  | none => false

/-- The predicate of `WHERE dateColumn >= ?`; again NULL fails it. -/
def dateGe (cutoff : Int) (r : Row) : Bool :=
  match r.date with
  | some d => decide (cutoff ≤ d)
  | none => false

/-- `SELECT COUNT(*) FROM n WHERE p`. -/
def countWhere (db : DB) (n : String) (p : Row → Bool) : Nat :=
  (((getTable db n).getD []).filter p).length

/-- `getTableCount`: `SELECT COUNT(*) FROM n`. -/
def getTableCount (db : DB) (n : String) : Nat :=
  ((getTable db n).getD []).length

/-- `copyOldRecords`: `INSERT INTO destTable SELECT * FROM sourceTable
WHERE dateColumn < cutoffDate`. -/
def copyOldRecords (db : DB) (sourceTable destTable : String) (cutoffDate : Int) : DB :=
  updateTable db destTable
    (fun t => t ++ ((getTable db sourceTable).getD []).filter (dateLt cutoffDate))

/-- `deleteOldRecords`: `DELETE FROM table WHERE dateColumn < cutoffDate`. -/
def deleteOldRecords (db : DB) (table : String) (cutoffDate : Int) : DB :=
  updateTable db table (fun t => t.filter (fun r => !dateLt cutoffDate r))

/-- The flags of `Config` that the cutover pipeline reads. -/
structure Config where
  table : String
  daysToKeep : Int
  dryRun : Bool
deriving Repr

/-- The error outcomes of `archiveTable` (each tagging one of the
`return fmt.Errorf(...)` sites). -/
inductive ArchiveError where
  | getCreateTableFailed
  | createTableFailed
  | copyFailed
  | recordCountMismatch
  | renameFailed
deriving DecidableEq, Repr

/-- The environment of one run: the two `time.Now()` reads the pipeline
performs (`now1` inside `countRecords`, `now2` in `archiveTable` just
before the copy step), the date suffix used for the run's table names,
and the injected driver failures (`copyFail` makes the
`INSERT ... SELECT` of step 4 fail, `dropFail` makes the compensating
`DROP TABLE IF EXISTS` fail). -/
structure RunEnv where
  suffix : String
  now1 : Int
  now2 : Int
  copyFail : Bool
  dropFail : Bool
deriving Repr

/-- Outcome of a run: the returned error (if any), the final catalog,
and the cutoff parameter bound in the count queries respectively in the
copy/delete queries (recording the two `cutoffDate` locals; `none` when
the run never issued those queries). -/
structure RunResult where
  err : Option ArchiveError
  db : DB
  countCutoff : Option Int
  dmlCutoff : Option Int
deriving DecidableEq, Repr

/-- `countRecords`: computes its own `cutoffDate` from a fresh
`time.Now()` read and issues the two count queries with it. Returns
(archiveCount, keepCount, cutoffDate); date-column detection is modelled
separately (`detectDateColumn` below) and the pipeline model assumes the
detected column is the `Row.date` field. -/
def countRecords (db : DB) (cfg : Config) (env : RunEnv) : Nat × Nat × Int :=
  let cutoffDate := env.now1 - cfg.daysToKeep
  let archiveCount := countWhere db cfg.table (dateLt cutoffDate)
  let keepCount := countWhere db cfg.table (dateGe cutoffDate)
  (archiveCount, keepCount, cutoffDate)

/-- The cutover pipeline `archiveTable`, step for step:
get the CREATE TABLE statement (fails when the table is missing), count,
no-op exit on zero archive count, dry-run exit, create the new table,
recompute the cutoff from a second `time.Now()`, copy rows older than
that cutoff, on copy failure best-effort drop of the new table and
return of the copy error, verify the copied count against `keepCount`,
delete rows older than the cutoff from the original, rename the original
to the archive name, rename the new table to the original name. The
optional exports of step 9 do not modify the catalog and their failures
are swallowed, so they do not appear in the state model. -/
def archiveTable (db0 : DB) (cfg : Config) (env : RunEnv) : RunResult :=
  let newTableName := cfg.table ++ "_" ++ env.suffix
  let archiveTableName := cfg.table ++ "_archive_" ++ env.suffix
  match getTable db0 cfg.table with
  | none => { err := some .getCreateTableFailed, db := db0, countCutoff := none, dmlCutoff := none }
  | some _ =>
    let counted := countRecords db0 cfg env
    let archiveCount := counted.1
    let keepCount := counted.2.1
    let cutoff1 := counted.2.2
    if archiveCount = 0 then
      { err := none, db := db0, countCutoff := some cutoff1, dmlCutoff := none }
    else if cfg.dryRun then
      { err := none, db := db0, countCutoff := some cutoff1, dmlCutoff := none }
    else
      match execCreateTable db0 newTableName with
      | none => { err := some .createTableFailed, db := db0, countCutoff := some cutoff1, dmlCutoff := none }
      | some db1 =>
        let cutoffDate := env.now2 - cfg.daysToKeep
        if env.copyFail then
          let db2 := if env.dropFail then db1 else dropTableIfExists db1 newTableName
          { err := some .copyFailed, db := db2, countCutoff := some cutoff1, dmlCutoff := some cutoffDate }
        else
          let db2 := copyOldRecords db1 cfg.table newTableName cutoffDate
          let copiedCount := getTableCount db2 newTableName
          if copiedCount ≠ keepCount then
            { err := some .recordCountMismatch, db := db2, countCutoff := some cutoff1, dmlCutoff := some cutoffDate }
          else
            let db3 := deleteOldRecords db2 cfg.table cutoffDate
            match execRenameTable db3 cfg.table archiveTableName with
            | none => { err := some .renameFailed, db := db3, countCutoff := some cutoff1, dmlCutoff := some cutoffDate }
            | some db4 =>
              match execRenameTable db4 newTableName cfg.table with
              | none => { err := some .renameFailed, db := db4, countCutoff := some cutoff1, dmlCutoff := some cutoffDate }
              | some db5 =>
                { err := none, db := db5, countCutoff := some cutoff1, dmlCutoff := some cutoffDate }

theorem getTable_cons (m : String) (t : Table) (db : DB) (n : String) :
    getTable ((m, t) :: db) n = if m = n then some t else getTable db n := rfl

theorem getTable_updateTable (db : DB) (n : String) (f : Table → Table) (x : String) :
    getTable (updateTable db n f) x = if x = n then (getTable db n).map f else getTable db x := by
  induction db with
  | nil => simp [updateTable, getTable]
  | cons p db ih =>
    obtain ⟨m, t⟩ := p
    by_cases hmn : m = n
    · subst hmn
      by_cases hxn : x = m
      · subst hxn
        simp [updateTable, getTable]
      · have hmx : ¬ m = x := fun h => hxn h.symm
        simp [updateTable, getTable, hxn, hmx, ih]
    · by_cases hmx : m = x
      · subst hmx
        have hxn : ¬ m = n := hmn
        simp [updateTable, getTable, hxn, ih]
      · simp [updateTable, getTable, hmn, hmx, ih]

theorem getTable_renameRaw_target (db : DB) (old new : String)
    (hnew : getTable db new = none) :
    getTable (renameRaw db old new) new = getTable db old := by
  induction db with
  | nil => simp [renameRaw, getTable]
  | cons p db ih =>
    obtain ⟨m, t⟩ := p
    rw [getTable_cons] at hnew
    by_cases hmn : m = new
    · simp [hmn] at hnew
    · simp only [if_neg hmn] at hnew
      by_cases hmo : m = old
      · subst hmo
        simp [renameRaw, getTable, hmn]
      · simp [renameRaw, getTable, hmn, hmo, ih hnew]

theorem getTable_renameRaw_source (db : DB) (old new : String) (hne : old ≠ new) :
    getTable (renameRaw db old new) old = none := by
  induction db with
  | nil => simp [renameRaw, getTable]
  | cons p db ih =>
    obtain ⟨m, t⟩ := p
    by_cases hmo : m = old
    · subst hmo
      simp [renameRaw, getTable, Ne.symm hne, ih]
    · simp [renameRaw, getTable, hmo, ih]

theorem getTable_renameRaw_other (db : DB) (old new x : String)
    (hxo : x ≠ old) (hxn : x ≠ new) :
    getTable (renameRaw db old new) x = getTable db x := by
  induction db with
  | nil => simp [renameRaw]
  | cons p db ih =>
    obtain ⟨m, t⟩ := p
    by_cases hmo : m = old
    · subst hmo
      simp [renameRaw, getTable, Ne.symm hxn, Ne.symm hxo, ih]
    · simp [renameRaw, getTable, hmo, ih]

theorem getTable_dropTableIfExists_self (db : DB) (n : String) :
    getTable (dropTableIfExists db n) n = none := by
  induction db with
  | nil => simp [dropTableIfExists, getTable]
  | cons p db ih =>
    obtain ⟨m, t⟩ := p
    by_cases hmn : m = n
    · simpa [dropTableIfExists, getTable, hmn] using ih
    · simpa [dropTableIfExists, getTable, hmn] using ih

theorem getTable_dropTableIfExists_other (db : DB) (n x : String) (h : x ≠ n) :
    getTable (dropTableIfExists db n) x = getTable db x := by
  induction db with
  | nil => simp [dropTableIfExists]
  | cons p db ih =>
    obtain ⟨m, t⟩ := p
    by_cases hmn : m = n
    · subst hmn
      simp [dropTableIfExists, getTable, Ne.symm h, ih]
    · simp [dropTableIfExists, getTable, hmn, ih]

/-- Every row falls in exactly one of the three classes the count, copy
and delete predicates distinguish: date before the cutoff, date at/after
the cutoff, or NULL date. -/
theorem counts_partition (rows : Table) (c : Int) :
    (rows.filter (dateLt c)).length + (rows.filter (dateGe c)).length
      + (rows.filter (fun r => r.date.isNone)).length = rows.length := by
  induction rows with
  | nil => simp
  | cons r rs ih =>
    cases hd : r.date with
    | none =>
      have h1 : dateLt c r = false := by simp [dateLt, hd]
      have h2 : dateGe c r = false := by simp [dateGe, hd]
      have h3 : r.date.isNone = true := by simp [hd]
      simp only [List.filter_cons, h1, h2, h3]
      simp only [Bool.false_eq_true, if_false, if_true, List.length_cons]
      omega
    | some d =>
      by_cases hlt : d < c
      · have h1 : dateLt c r = true := by simp [dateLt, hd, hlt]
        have h2 : dateGe c r = false := by
          simp only [dateGe, hd, decide_eq_false_iff_not]
          omega
        have h3 : r.date.isNone = false := by simp [hd]
        simp only [List.filter_cons, h1, h2, h3]
        simp only [Bool.false_eq_true, if_false, if_true, List.length_cons]
        omega
      · have h1 : dateLt c r = false := by
          simp only [dateLt, hd, decide_eq_false_iff_not]
          omega
        have h2 : dateGe c r = true := by
          simp only [dateGe, hd, decide_eq_true_eq]
          omega
        have h3 : r.date.isNone = false := by simp [hd]
        simp only [List.filter_cons, h1, h2, h3]
        simp only [Bool.false_eq_true, if_false, if_true, List.length_cons]
        omega

theorem updateTable_not_found (db : DB) (n : String) (f : Table → Table)
    (h : getTable db n = none) : updateTable db n f = db := by
  induction db with
  | nil => rfl
  | cons p db ih =>
    obtain ⟨m, t⟩ := p
    rw [getTable_cons] at h
    by_cases hmn : m = n
    · simp [hmn] at h
    · simp only [if_neg hmn] at h
      simp [updateTable, hmn, ih h]

/-- C6: when the count of rows strictly older than the cutoff is zero,
`archiveTable` returns success right after counting, with the catalog
untouched (no table created, nothing copied, deleted or renamed) and no
copy/delete query ever issued. -/
theorem archiveTable_zero_count_noop (db : DB) (cfg : Config) (env : RunEnv) (rows : Table)
    (hT : getTable db cfg.table = some rows)
    (hZero : (rows.filter (dateLt (env.now1 - cfg.daysToKeep))).length = 0) :
    archiveTable db cfg env =
      { err := none, db := db,
        countCutoff := some (env.now1 - cfg.daysToKeep), dmlCutoff := none } := by
  unfold archiveTable countRecords countWhere
  rw [hT]
  simp [hZero]

theorem archiveTable_zero_count_noop_witness :
    getTable [("t", [⟨some 10, 1⟩])] "t" = some [⟨some 10, 1⟩] ∧
    (([⟨some 10, 1⟩] : Table).filter (dateLt ((5 : Int) - 0))).length = 0 ∧
    archiveTable [("t", [⟨some 10, 1⟩])] ⟨"t", 0, false⟩ ⟨"s", 5, 5, false, false⟩ =
      { err := none, db := [("t", [⟨some 10, 1⟩])],
        countCutoff := some ((5 : Int) - 0), dmlCutoff := none } :=
  ⟨by decide, by decide,
    archiveTable_zero_count_noop [("t", [⟨some 10, 1⟩])] ⟨"t", 0, false⟩
      ⟨"s", 5, 5, false, false⟩ [⟨some 10, 1⟩] (by decide) (by decide)⟩

/-- C5: when the copy step fails, `archiveTable` attempts to drop the
temporary-working table (the drop's own outcome is ignored, never
escalated) and returns the copy failure; the original table's rows are
unchanged on this path, and when the drop succeeds the temporary table
is gone. -/
theorem archiveTable_copy_failure_compensates (db : DB) (cfg : Config) (env : RunEnv)
    (rows : Table)
    (hT : getTable db cfg.table = some rows)
    (hNew : getTable db (cfg.table ++ "_" ++ env.suffix) = none)
    (hNT : cfg.table ++ "_" ++ env.suffix ≠ cfg.table)
    (hDry : cfg.dryRun = false)
    (hA : (rows.filter (dateLt (env.now1 - cfg.daysToKeep))).length ≠ 0)
    (hCopy : env.copyFail = true) :
    (archiveTable db cfg env).err = some .copyFailed ∧
    getTable (archiveTable db cfg env).db cfg.table = some rows ∧
    (env.dropFail = false →
      getTable (archiveTable db cfg env).db (cfg.table ++ "_" ++ env.suffix) = none) := by
  have hrun : archiveTable db cfg env =
      { err := some .copyFailed,
        db := if env.dropFail then (cfg.table ++ "_" ++ env.suffix, []) :: db
              else dropTableIfExists ((cfg.table ++ "_" ++ env.suffix, []) :: db)
                     (cfg.table ++ "_" ++ env.suffix),
        countCutoff := some (env.now1 - cfg.daysToKeep),
        dmlCutoff := some (env.now2 - cfg.daysToKeep) } := by
    unfold archiveTable countRecords countWhere execCreateTable
    rw [hT]
    simp [hA, hDry, hCopy, hNew]
  refine ⟨by rw [hrun], ?_, ?_⟩
  · rw [hrun]
    cases hdf : env.dropFail with
    | true =>
      simp [hdf, getTable_cons, hNT, hT]
    | false =>
      simp only [hdf, if_false, Bool.false_eq_true]
      rw [getTable_dropTableIfExists_other _ _ _ (Ne.symm hNT), getTable_cons, if_neg hNT, hT]
  · intro hdf
    rw [hrun]
    simp only [hdf, if_false, Bool.false_eq_true]
    exact getTable_dropTableIfExists_self _ _

theorem archiveTable_copy_failure_compensates_witness :
    getTable [("t", [⟨some 1, 0⟩, ⟨some 10, 1⟩])] "t" = some [⟨some 1, 0⟩, ⟨some 10, 1⟩] ∧
    getTable [("t", [⟨some 1, 0⟩, ⟨some 10, 1⟩])] ("t" ++ "_" ++ "s") = none ∧
    ("t" ++ "_" ++ "s") ≠ "t" ∧
    (([⟨some 1, 0⟩, ⟨some 10, 1⟩] : Table).filter (dateLt ((5 : Int) - 0))).length ≠ 0 ∧
    ((archiveTable [("t", [⟨some 1, 0⟩, ⟨some 10, 1⟩])] ⟨"t", 0, false⟩
        ⟨"s", 5, 5, true, false⟩).err = some .copyFailed ∧
      getTable (archiveTable [("t", [⟨some 1, 0⟩, ⟨some 10, 1⟩])] ⟨"t", 0, false⟩
        ⟨"s", 5, 5, true, false⟩).db "t" = some [⟨some 1, 0⟩, ⟨some 10, 1⟩] ∧
      (false = false →
        getTable (archiveTable [("t", [⟨some 1, 0⟩, ⟨some 10, 1⟩])] ⟨"t", 0, false⟩
          ⟨"s", 5, 5, true, false⟩).db ("t" ++ "_" ++ "s") = none)) :=
  ⟨by decide, by decide, by decide, by decide,
    archiveTable_copy_failure_compensates [("t", [⟨some 1, 0⟩, ⟨some 10, 1⟩])]
      ⟨"t", 0, false⟩ ⟨"s", 5, 5, true, false⟩ [⟨some 1, 0⟩, ⟨some 10, 1⟩]
      (by decide) (by decide) (by decide) (by decide) (by decide) (by decide)⟩

/-- C4: when the row count of the temporary-working table differs from
the captured keep-count, `archiveTable` returns the record-count-mismatch
error before the delete, the renames and the exports: the original
table's rows are unchanged, the temporary-working table is still present
(holding the copied rows), and nothing exists under the archive name
beyond what was there before the run. -/
theorem archiveTable_verify_mismatch_aborts (db : DB) (cfg : Config) (env : RunEnv)
    (rows : Table)
    (hT : getTable db cfg.table = some rows)
    (hNew : getTable db (cfg.table ++ "_" ++ env.suffix) = none)
    (hNT : cfg.table ++ "_" ++ env.suffix ≠ cfg.table)
    (hAN : cfg.table ++ "_archive_" ++ env.suffix ≠ cfg.table ++ "_" ++ env.suffix)
    (hDry : cfg.dryRun = false)
    (hCopy : env.copyFail = false)
    (hA : (rows.filter (dateLt (env.now1 - cfg.daysToKeep))).length ≠ 0)
    (hMis : (rows.filter (dateLt (env.now2 - cfg.daysToKeep))).length ≠
            (rows.filter (dateGe (env.now1 - cfg.daysToKeep))).length) :
    (archiveTable db cfg env).err = some .recordCountMismatch ∧
    getTable (archiveTable db cfg env).db cfg.table = some rows ∧
    getTable (archiveTable db cfg env).db (cfg.table ++ "_" ++ env.suffix) =
      some (rows.filter (dateLt (env.now2 - cfg.daysToKeep))) ∧
    getTable (archiveTable db cfg env).db (cfg.table ++ "_archive_" ++ env.suffix) =
      getTable db (cfg.table ++ "_archive_" ++ env.suffix) := by
  have hsrc : getTable ((cfg.table ++ "_" ++ env.suffix, []) :: db) cfg.table = some rows := by
    rw [getTable_cons, if_neg hNT, hT]
  have hrun : archiveTable db cfg env =
      { err := some .recordCountMismatch,
        db := (cfg.table ++ "_" ++ env.suffix,
               rows.filter (dateLt (env.now2 - cfg.daysToKeep))) :: db,
        countCutoff := some (env.now1 - cfg.daysToKeep),
        dmlCutoff := some (env.now2 - cfg.daysToKeep) } := by
    unfold archiveTable countRecords countWhere execCreateTable copyOldRecords getTableCount
    rw [hT]
    simp only [Option.getD_some, Option.isSome_none, Bool.false_eq_true, if_false, hNew,
      hDry, hCopy, if_true, Bool.false_eq_true]
    rw [if_neg hA]
    simp only [Bool.false_eq_true, if_false, hsrc, Option.getD_some, updateTable,
      if_pos rfl, updateTable_not_found db _ _ hNew, getTable_cons, if_pos rfl,
      Option.getD_some, List.nil_append]
    simp only [if_true, eq_self_iff_true, getTable_cons, Option.getD_some]
    rw [if_pos hMis]
  refine ⟨by rw [hrun], ?_, ?_, ?_⟩
  · rw [hrun]
    simp only [getTable_cons, if_neg hNT, hT]
  · rw [hrun]
    simp [getTable_cons]
  · rw [hrun]
    simp only [getTable_cons, if_neg (Ne.symm hAN)]

theorem archiveTable_verify_mismatch_aborts_witness :
    getTable [("t", [⟨some 1, 0⟩, ⟨some 10, 1⟩, ⟨some 11, 2⟩])] "t" =
      some [⟨some 1, 0⟩, ⟨some 10, 1⟩, ⟨some 11, 2⟩] ∧
    getTable [("t", [⟨some 1, 0⟩, ⟨some 10, 1⟩, ⟨some 11, 2⟩])] ("t" ++ "_" ++ "s") = none ∧
    ("t" ++ "_" ++ "s") ≠ "t" ∧
    ("t" ++ "_archive_" ++ "s") ≠ ("t" ++ "_" ++ "s") ∧
    (([⟨some 1, 0⟩, ⟨some 10, 1⟩, ⟨some 11, 2⟩] : Table).filter
        (dateLt ((5 : Int) - 0))).length ≠ 0 ∧
    (([⟨some 1, 0⟩, ⟨some 10, 1⟩, ⟨some 11, 2⟩] : Table).filter
        (dateLt ((5 : Int) - 0))).length ≠
      (([⟨some 1, 0⟩, ⟨some 10, 1⟩, ⟨some 11, 2⟩] : Table).filter
        (dateGe ((5 : Int) - 0))).length ∧
    (archiveTable [("t", [⟨some 1, 0⟩, ⟨some 10, 1⟩, ⟨some 11, 2⟩])] ⟨"t", 0, false⟩
      ⟨"s", 5, 5, false, false⟩).err = some .recordCountMismatch :=
  ⟨by decide, by decide, by decide, by decide, by decide, by decide,
    (archiveTable_verify_mismatch_aborts [("t", [⟨some 1, 0⟩, ⟨some 10, 1⟩, ⟨some 11, 2⟩])]
      ⟨"t", 0, false⟩ ⟨"s", 5, 5, false, false⟩ [⟨some 1, 0⟩, ⟨some 10, 1⟩, ⟨some 11, 2⟩]
      (by decide) (by decide) (by decide) (by decide) (by decide) (by decide)
      (by decide) (by decide)).1⟩

/-- C1: the cutover pipeline does not deliver the promised final state.
On the spec's own scenario shape (more rows to archive than to keep, or
vice versa: here one old row, two recent ones) the run aborts with the
record-count-mismatch error, because the verify step compares the count
of copied old rows against the keep-count. And when the two counts
happen to be equal, the run succeeds but with the contents inverted:
the table bearing the original name ends up holding the rows strictly
older than the cutoff, and the archive-named table holds the rows
at/after the cutoff — the opposite of the claimed final state. -/
theorem archiveTable_final_state_inverted :
    (archiveTable [("t", [⟨some 1, 0⟩, ⟨some 10, 1⟩, ⟨some 11, 2⟩])] ⟨"t", 0, false⟩
      ⟨"s", 5, 5, false, false⟩).err = some .recordCountMismatch ∧
    archiveTable [("t", [⟨some 1, 0⟩, ⟨some 10, 1⟩])] ⟨"t", 0, false⟩
      ⟨"s", 5, 5, false, false⟩ =
      { err := none,
        db := [("t", [⟨some 1, 0⟩]), ("t_archive_s", [⟨some 10, 1⟩])],
        countCutoff := some 5, dmlCutoff := some 5 } ∧
    dateLt 5 ⟨some 1, 0⟩ = true ∧
    dateGe 5 ⟨some 10, 1⟩ = true := by decide

/-- C2: the cutoff is not computed once per run: `countRecords` derives
it from one `time.Now()` read and `archiveTable` recomputes it from a
second read before the copy. On a run where the clock advances between
the two reads, the parameter bound in the count queries differs from the
one bound in the copy and delete queries, and the verify step spuriously
fails because the copied set was taken at the later cutoff. -/
theorem archiveTable_cutoff_recomputed :
    (archiveTable [("t", [⟨some 3, 0⟩, ⟨some 6, 1⟩, ⟨some 6, 2⟩])] ⟨"t", 0, false⟩
      ⟨"s", 5, 7, false, false⟩).countCutoff = some 5 ∧
    (archiveTable [("t", [⟨some 3, 0⟩, ⟨some 6, 1⟩, ⟨some 6, 2⟩])] ⟨"t", 0, false⟩
      ⟨"s", 5, 7, false, false⟩).dmlCutoff = some 7 ∧
    (archiveTable [("t", [⟨some 3, 0⟩, ⟨some 6, 1⟩, ⟨some 6, 2⟩])] ⟨"t", 0, false⟩
      ⟨"s", 5, 7, false, false⟩).countCutoff ≠
      (archiveTable [("t", [⟨some 3, 0⟩, ⟨some 6, 1⟩, ⟨some 6, 2⟩])] ⟨"t", 0, false⟩
        ⟨"s", 5, 7, false, false⟩).dmlCutoff ∧
    (archiveTable [("t", [⟨some 3, 0⟩, ⟨some 6, 1⟩, ⟨some 6, 2⟩])] ⟨"t", 0, false⟩
      ⟨"s", 5, 7, false, false⟩).err = some .recordCountMismatch := by decide

/-- C10: rows whose date column is NULL satisfy neither strict
comparison against the cutoff: they are counted in neither archive-count
nor keep-count (the three filters partition the table), they are never
copied into the temporary-working table and never deleted from the
original. After a successful cutover they therefore reside in the
archive-named table (the renamed original) and not in the table now
bearing the original name, and archive-count plus keep-count falls short
of the total row count by the number of NULL-dated rows. -/
theorem archiveTable_null_rows_only_in_archive (db : DB) (cfg : Config) (env : RunEnv)
    (rows : Table)
    (hT : getTable db cfg.table = some rows)
    (hNew : getTable db (cfg.table ++ "_" ++ env.suffix) = none)
    (hArch : getTable db (cfg.table ++ "_archive_" ++ env.suffix) = none)
    (hNT : cfg.table ++ "_" ++ env.suffix ≠ cfg.table)
    (hAT : cfg.table ++ "_archive_" ++ env.suffix ≠ cfg.table)
    (hAN : cfg.table ++ "_archive_" ++ env.suffix ≠ cfg.table ++ "_" ++ env.suffix)
    (hDry : cfg.dryRun = false)
    (hCopy : env.copyFail = false)
    (hA : (rows.filter (dateLt (env.now1 - cfg.daysToKeep))).length ≠ 0)
    (hVer : (rows.filter (dateLt (env.now2 - cfg.daysToKeep))).length =
            (rows.filter (dateGe (env.now1 - cfg.daysToKeep))).length) :
    (archiveTable db cfg env).err = none ∧
    getTable (archiveTable db cfg env).db (cfg.table ++ "_archive_" ++ env.suffix) =
      some (rows.filter (fun r => !dateLt (env.now2 - cfg.daysToKeep) r)) ∧
    getTable (archiveTable db cfg env).db cfg.table =
      some (rows.filter (dateLt (env.now2 - cfg.daysToKeep))) ∧
    (∀ r ∈ rows, r.date = none →
      r ∈ rows.filter (fun r => !dateLt (env.now2 - cfg.daysToKeep) r) ∧
      r ∉ rows.filter (dateLt (env.now2 - cfg.daysToKeep))) ∧
    (rows.filter (dateLt (env.now1 - cfg.daysToKeep))).length +
      (rows.filter (dateGe (env.now1 - cfg.daysToKeep))).length +
      (rows.filter (fun r => r.date.isNone)).length = rows.length := by
  set c1 := env.now1 - cfg.daysToKeep with hc1
  set c2 := env.now2 - cfg.daysToKeep with hc2
  set newName := cfg.table ++ "_" ++ env.suffix with hnn
  set archName := cfg.table ++ "_archive_" ++ env.suffix with han
  have hsrc : getTable ((newName, ([] : Table)) :: db) cfg.table = some rows := by
    rw [getTable_cons, if_neg hNT, hT]
  have hVer' : ¬ ((rows.filter (dateLt c2)).length ≠ (rows.filter (dateGe c1)).length) :=
    not_not_intro hVer
  have h3T : getTable
      ((newName, rows.filter (dateLt c2)) ::
        updateTable db cfg.table (fun t => List.filter (fun r => !dateLt c2 r) t))
      cfg.table = some (List.filter (fun r => !dateLt c2 r) rows) := by
    rw [getTable_cons, if_neg hNT, getTable_updateTable, if_pos rfl, hT]
    rfl
  have h3A : getTable
      ((newName, rows.filter (dateLt c2)) ::
        updateTable db cfg.table (fun t => List.filter (fun r => !dateLt c2 r) t))
      archName = none := by
    rw [getTable_cons, if_neg (Ne.symm hAN), getTable_updateTable, if_neg hAT, hArch]
  have h3N : getTable
      ((newName, rows.filter (dateLt c2)) ::
        updateTable db cfg.table (fun t => List.filter (fun r => !dateLt c2 r) t))
      newName = some (rows.filter (dateLt c2)) := by
    rw [getTable_cons, if_pos rfl]
  have h4T : getTable
      (renameRaw ((newName, rows.filter (dateLt c2)) ::
        updateTable db cfg.table (fun t => List.filter (fun r => !dateLt c2 r) t))
        cfg.table archName) cfg.table = none :=
    getTable_renameRaw_source _ _ _ (Ne.symm hAT)
  have h4N : getTable
      (renameRaw ((newName, rows.filter (dateLt c2)) ::
        updateTable db cfg.table (fun t => List.filter (fun r => !dateLt c2 r) t))
        cfg.table archName) newName = some (rows.filter (dateLt c2)) := by
    rw [getTable_renameRaw_other _ _ _ _ hNT (Ne.symm hAN), h3N]
  have hrun : archiveTable db cfg env =
      { err := none,
        db := renameRaw
                (renameRaw ((newName, rows.filter (dateLt c2)) ::
                  updateTable db cfg.table (fun t => List.filter (fun r => !dateLt c2 r) t))
                  cfg.table archName)
                newName cfg.table,
        countCutoff := some c1, dmlCutoff := some c2 } := by
    unfold archiveTable countRecords countWhere execCreateTable copyOldRecords getTableCount
      deleteOldRecords execRenameTable
    rw [hT]
    simp only [Option.getD_some, Option.isSome_none, Bool.false_eq_true, if_false, hNew,
      hDry, hCopy, if_true]
    rw [if_neg hA]
    simp only [Bool.false_eq_true, if_false, hsrc, Option.getD_some, updateTable,
      if_pos rfl, updateTable_not_found db _ _ hNew, getTable_cons,
      Option.getD_some, List.nil_append]
    simp only [if_true, eq_self_iff_true, getTable_cons, Option.getD_some]
    rw [if_neg hVer']
    simp only [if_neg hNT, h3T, h3A, h4T, h4N, Option.isNone_some, Option.isSome_none,
      Option.isSome_some, Option.isNone_none, Bool.false_eq_true, if_false, if_true]
  have herr : (archiveTable db cfg env).err = none := by rw [hrun]
  have hdb : (archiveTable db cfg env).db =
      renameRaw
        (renameRaw ((newName, rows.filter (dateLt c2)) ::
          updateTable db cfg.table (fun t => List.filter (fun r => !dateLt c2 r) t))
          cfg.table archName)
        newName cfg.table := by
    rw [hrun]
  refine ⟨herr, ?_, ?_, ?_, counts_partition rows c1⟩
  · rw [hdb, getTable_renameRaw_other _ _ _ _ hAN hAT,
      getTable_renameRaw_target _ _ _ h3A, h3T]
  · rw [hdb, getTable_renameRaw_target _ _ _ h4T, h4N]
  · intro r hr hnone
    constructor
    · exact List.mem_filter.2 ⟨hr, by simp [dateLt, hnone]⟩
    · intro hmem
      have hfl := (List.mem_filter.1 hmem).2
      simp [dateLt, hnone] at hfl

theorem archiveTable_null_rows_only_in_archive_witness :
    getTable [("t", [⟨some 1, 0⟩, ⟨some 10, 1⟩, ⟨none, 2⟩])] "t" =
      some [⟨some 1, 0⟩, ⟨some 10, 1⟩, ⟨none, 2⟩] ∧
    getTable [("t", [⟨some 1, 0⟩, ⟨some 10, 1⟩, ⟨none, 2⟩])] ("t" ++ "_" ++ "s") = none ∧
    getTable [("t", [⟨some 1, 0⟩, ⟨some 10, 1⟩, ⟨none, 2⟩])] ("t" ++ "_archive_" ++ "s") = none ∧
    ("t" ++ "_" ++ "s") ≠ "t" ∧
    ("t" ++ "_archive_" ++ "s") ≠ "t" ∧
    ("t" ++ "_archive_" ++ "s") ≠ ("t" ++ "_" ++ "s") ∧
    (⟨"t", 0, false⟩ : Config).dryRun = false ∧
    (⟨"s", 5, 5, false, false⟩ : RunEnv).copyFail = false ∧
    (([⟨some 1, 0⟩, ⟨some 10, 1⟩, ⟨none, 2⟩] : Table).filter
        (dateLt ((5 : Int) - 0))).length ≠ 0 ∧
    (([⟨some 1, 0⟩, ⟨some 10, 1⟩, ⟨none, 2⟩] : Table).filter
        (dateLt ((5 : Int) - 0))).length =
      (([⟨some 1, 0⟩, ⟨some 10, 1⟩, ⟨none, 2⟩] : Table).filter
        (dateGe ((5 : Int) - 0))).length ∧
    (archiveTable [("t", [⟨some 1, 0⟩, ⟨some 10, 1⟩, ⟨none, 2⟩])] ⟨"t", 0, false⟩
      ⟨"s", 5, 5, false, false⟩).err = none ∧
    getTable (archiveTable [("t", [⟨some 1, 0⟩, ⟨some 10, 1⟩, ⟨none, 2⟩])] ⟨"t", 0, false⟩
      ⟨"s", 5, 5, false, false⟩).db ("t" ++ "_archive_" ++ "s") =
      some [⟨some 10, 1⟩, ⟨none, 2⟩] :=
  ⟨by decide, by decide, by decide, by decide, by decide, by decide, by decide, by decide,
    by decide, by decide,
    (archiveTable_null_rows_only_in_archive
      [("t", [⟨some 1, 0⟩, ⟨some 10, 1⟩, ⟨none, 2⟩])] ⟨"t", 0, false⟩
      ⟨"s", 5, 5, false, false⟩ [⟨some 1, 0⟩, ⟨some 10, 1⟩, ⟨none, 2⟩]
      (by decide) (by decide) (by decide) (by decide) (by decide) (by decide)
      (by decide) (by decide) (by decide) (by decide)).1,
    (archiveTable_null_rows_only_in_archive
      [("t", [⟨some 1, 0⟩, ⟨some 10, 1⟩, ⟨none, 2⟩])] ⟨"t", 0, false⟩
      ⟨"s", 5, 5, false, false⟩ [⟨some 1, 0⟩, ⟨some 10, 1⟩, ⟨none, 2⟩]
      (by decide) (by decide) (by decide) (by decide) (by decide) (by decide)
      (by decide) (by decide) (by decide) (by decide)).2.1⟩

/-! ## String scanning helpers

The Go functions below (`strings.Contains`, `strings.Replace`,
`strings.ReplaceAll` and the two fixed regular expressions of
`modifyCreateStatement`) are embedded as explicit scanners over
`List Char`. -/

/-- Match a literal pattern as a prefix, returning the rest on success. -/
def matchLit : List Char → List Char → Option (List Char)
  | [], l => some l
  | _ :: _, [] => none
  | p :: ps, c :: cs => if p == c then matchLit ps cs else none

/-- `strings.Contains` (does `sub` occur anywhere in the text?). -/
def containsSub (sub : List Char) : List Char → Bool
  | [] => (matchLit sub []).isSome
  | c :: cs => (matchLit sub (c :: cs)).isSome || containsSub sub cs

/-- `strings.ToLower`. -/
def lowerStr (s : String) : String := String.mk (s.data.map Char.toLower)

/-- `strings.ToUpper`. -/
def upperStr (s : String) : String := String.mk (s.data.map Char.toUpper)

/-! ## DateColumnSelector (`detectDateColumn`) -/

/-- One row of `SHOW COLUMNS`: the field name and its declared type. -/
structure ColumnInfo where
  field : String
  colType : String
deriving DecidableEq, Repr

/-- The priority list of date-column names hard-coded in the source. -/
def dateColumnsPriority : List String :=
  ["smsdate", "request_time", "deli_date", "created_at", "updated_at",
   "req_date", "res_date", "date_created", "created"]

/-- A column qualifies when its lowercased declared type contains
"date" or "time". -/
def isDateTimeType (colType : String) : Bool :=
  containsSub "date".data (lowerStr colType).data ||
  containsSub "time".data (lowerStr colType).data

/-- The key set of the `availableColumns` map: the fields whose type is
in the date/time family, in schema order. -/
def dateTimeFields (cols : List ColumnInfo) : List String :=
  (cols.filter (fun c => isDateTimeType c.colType)).map (fun c => c.field)

/-- `detectDateColumn`. The first loop scans the priority list against
the `availableColumns` map; the fallback `for col := range availableColumns`
reads the first key Go's randomized map iteration yields, modelled by
the `iterOrder` parameter (an iteration order of the key set supplied by
the runtime). -/
def detectDateColumn (tableName : String) (cols : List ColumnInfo)
    (iterOrder : List String) : Except String String :=
  let availableColumns := dateTimeFields cols
  match dateColumnsPriority.find? (fun col => availableColumns.contains col) with
  | some col => .ok col
  | none =>
    match iterOrder with
    | col :: _ => .ok col
    | [] => .error ("no suitable date column found in table " ++ tableName)

instance {ε α : Type} [DecidableEq ε] [DecidableEq α] : DecidableEq (Except ε α) :=
  fun a b =>
    match a, b with
    | .error e, .error f =>
      if h : e = f then isTrue (by rw [h]) else isFalse (fun hh => h (Except.error.inj hh))
    | .ok x, .ok y =>
      if h : x = y then isTrue (by rw [h]) else isFalse (fun hh => h (Except.ok.inj hh))
    | .error _, .ok _ => isFalse (fun hh => Except.noConfusion hh)
    | .ok _, .error _ => isFalse (fun hh => Except.noConfusion hh)

/-- C3: `detectDateColumn` is not deterministic for a fixed schema. For
a schema with two datetime columns `a`, `b` and no preference-list name,
both `[a, b]` and `[b, a]` are iteration orders of the same
`availableColumns` key set — Go randomizes map range order between
invocations — and the two invocations return different columns. -/
theorem detectDateColumn_depends_on_iteration_order :
    dateTimeFields [⟨"a", "datetime"⟩, ⟨"b", "datetime"⟩] = ["a", "b"] ∧
    List.Perm ["a", "b"] (dateTimeFields [⟨"a", "datetime"⟩, ⟨"b", "datetime"⟩]) ∧
    List.Perm ["b", "a"] (dateTimeFields [⟨"a", "datetime"⟩, ⟨"b", "datetime"⟩]) ∧
    detectDateColumn "logs" [⟨"a", "datetime"⟩, ⟨"b", "datetime"⟩] ["a", "b"] =
      .ok "a" ∧
    detectDateColumn "logs" [⟨"a", "datetime"⟩, ⟨"b", "datetime"⟩] ["b", "a"] =
      .ok "b" ∧
    detectDateColumn "logs" [⟨"a", "datetime"⟩, ⟨"b", "datetime"⟩] ["a", "b"] ≠
      detectDateColumn "logs" [⟨"a", "datetime"⟩, ⟨"b", "datetime"⟩] ["b", "a"] := by
  refine ⟨by decide, by decide, by decide, by decide, by decide, ?_⟩
  intro h
  have h1 : detectDateColumn "logs" [⟨"a", "datetime"⟩, ⟨"b", "datetime"⟩] ["a", "b"] =
      .ok "a" := by decide
  have h2 : detectDateColumn "logs" [⟨"a", "datetime"⟩, ⟨"b", "datetime"⟩] ["b", "a"] =
      .ok "b" := by decide
  rw [h1, h2] at h
  exact absurd (Except.ok.inj h) (by decide)

/-! ## Value formatters (`formatCSVValue`, `formatSQLValue`) -/

def backslashChar : Char := Char.ofNat 92
def singleQuoteChar : Char := Char.ofNat 39
def newlineChar : Char := Char.ofNat 10
def carriageChar : Char := Char.ofNat 13
def nulChar : Char := Char.ofNat 0
def subChar : Char := Char.ofNat 26

/-- `strings.ReplaceAll`: non-overlapping left-to-right replacement;
replaced text is not rescanned. Fuel is the input length, enough since
every step consumes at least one character of the input. -/
def goReplaceAllAux (pat rep : List Char) : Nat → List Char → List Char
  | 0, l => l
  | _ + 1, [] => []
  | fuel + 1, c :: cs =>
    match matchLit pat (c :: cs) with
    | some rest => rep ++ goReplaceAllAux pat rep fuel rest
    | none => c :: goReplaceAllAux pat rep fuel cs

def goReplaceAll (s pat rep : String) : String :=
  String.mk (goReplaceAllAux pat.data rep.data s.data.length s.data)

/-- The escaping applied to string/binary values in the tabular (SQL)
exporter: backslash, quote, newline, carriage return, NUL and SUB, in
the source's order. -/
def escapeSQLString (s : String) : String :=
  let s1 := goReplaceAll s (String.mk [backslashChar]) (String.mk [backslashChar, backslashChar])
  let s2 := goReplaceAll s1 (String.mk [singleQuoteChar]) (String.mk [backslashChar, singleQuoteChar])
  let s3 := goReplaceAll s2 (String.mk [newlineChar]) (String.mk [backslashChar, 'n'])
  let s4 := goReplaceAll s3 (String.mk [carriageChar]) (String.mk [backslashChar, 'r'])
  let s5 := goReplaceAll s4 (String.mk [nulChar]) (String.mk [backslashChar, '0'])
  let s6 := goReplaceAll s5 (String.mk [subChar]) (String.mk [backslashChar, 'Z'])
  s6

/-- Go `time.Time` restricted to the fields the formatters read. The
zero value of `time.Time` is January 1, year 1, 00:00:00. -/
structure GoTime where
  year : Nat
  month : Nat
  day : Nat
  hour : Nat
  minute : Nat
  second : Nat
deriving DecidableEq, Repr

def GoTime.isZero (t : GoTime) : Bool := t == ⟨1, 1, 1, 0, 0, 0⟩

/-- Zero-pad a number to the given width (Go layout components `2006`,
`01`, `02`, `15`, `04`, `05` are fixed-width, zero-padded). -/
def padNum (width n : Nat) : String :=
  let s := toString n
  if s.length < width then String.mk (List.replicate (width - s.length) '0') ++ s else s

/-- `v.Format("2006-01-02 15:04:05")`. -/
def GoTime.format (t : GoTime) : String :=
  padNum 4 t.year ++ "-" ++ padNum 2 t.month ++ "-" ++ padNum 2 t.day ++ " " ++
  padNum 2 t.hour ++ ":" ++ padNum 2 t.minute ++ ":" ++ padNum 2 t.second

/-- The dynamic values the `database/sql` driver hands to the two value
formatters. The Go type switches also have arms for floats and a
`default` arm (both format via `fmt.Sprintf`); those arms are outside
the claims and are not part of this embedding. -/
inductive GoValue where
  | null
  | bytes (s : String)
  | time (t : GoTime)
  | intVal (n : Int)
  | boolVal (b : Bool)
  | strVal (s : String)
deriving DecidableEq, Repr

/-- `formatCSVValue`. -/
def formatCSVValue (val : GoValue) : String :=
  match val with
  | .null => ""
  | .bytes s => s
  | .time v => if v.isZero then "" else v.format
  | .intVal n => toString n
  | .boolVal b => if b then "true" else "false"
  | .strVal s => s

/-- `formatSQLValue` (its `colType` parameter is never read by the
source and is elided). -/
def formatSQLValue (val : GoValue) : String :=
  match val with
  | .null => "NULL"
  | .bytes s => String.mk [singleQuoteChar] ++ escapeSQLString s ++ String.mk [singleQuoteChar]
  | .time v =>
    if v.isZero then "NULL"
    else String.mk [singleQuoteChar] ++ v.format ++ String.mk [singleQuoteChar]
  | .intVal n => toString n
  | .boolVal b => if b then "1" else "0"
  | .strVal s => String.mk [singleQuoteChar] ++ escapeSQLString s ++ String.mk [singleQuoteChar]

/-- C8: NULL maps to the empty string in the delimited exporter and to
the literal NULL keyword in the tabular exporter; a zero time instant
maps to empty/NULL rather than a formatted epoch, a non-zero time maps
to the fixed zero-padded `YYYY-MM-DD HH:MM:SS` layout (quoted in SQL);
booleans map to `true`/`false` in CSV and `1`/`0` in SQL. -/
theorem formatValue_null_time_bool (t : GoTime) (b : Bool) :
    formatCSVValue GoValue.null = "" ∧
    formatSQLValue GoValue.null = "NULL" ∧
    formatCSVValue (GoValue.time t) = (if t.isZero then "" else t.format) ∧
    formatSQLValue (GoValue.time t) =
      (if t.isZero then "NULL"
       else String.mk [singleQuoteChar] ++ t.format ++ String.mk [singleQuoteChar]) ∧
    formatCSVValue (GoValue.boolVal b) = (if b then "true" else "false") ∧
    formatSQLValue (GoValue.boolVal b) = (if b then "1" else "0") ∧
    GoTime.format ⟨2024, 3, 5, 7, 8, 9⟩ = "2024-03-05 07:08:09" :=
  ⟨rfl, rfl, rfl, rfl, rfl, rfl, by decide⟩

/-! ## IdentifierRewriter (`modifyCreateStatement`)

The two fixed regular expressions are embedded as scanners with Go's
leftmost-first matching semantics: the text is scanned left to right,
at each position the alternation branches are tried in the source's
order, and a successful match is consumed whole (the replacement is not
rescanned). -/

def backquoteChar : Char := Char.ofNat 96

/-- RE2 `\s`: tab, newline, form feed, carriage return, space. -/
def isGoSpace (c : Char) : Bool :=
  c == Char.ofNat 9 || c == newlineChar || c == Char.ofNat 12 || c == carriageChar || c == ' '

/-- `\s+` (greedy, deterministic here since whitespace and backquote are
disjoint): one or more whitespace characters. -/
def matchWS1 : List Char → Option (List Char)
  | [] => none
  | c :: cs => if isGoSpace c then some (cs.dropWhile isGoSpace) else none

/-- A backquoted identifier: backquote, one or more non-backquote
characters (greedy), closing backquote. Returns the identifier text. -/
def matchName : List Char → Option (String × List Char)
  | [] => none
  | c :: cs =>
    if c == backquoteChar then
      let nm := cs.takeWhile (fun d => d != backquoteChar)
      if nm.isEmpty then none
      else
        match cs.dropWhile (fun d => d != backquoteChar) with
        | _ :: rest => some (String.mk nm, rest)
        | [] => none
    else none

/-- After an index keyword: `\s+` then a backquoted identifier. -/
def matchKeyTail (l : List Char) : Option (String × List Char) :=
  match matchWS1 l with
  | some r => matchName r
  | none => none

/-- One alternation branch of `(KEY|INDEX|UNIQUE KEY)` at the current
position: keyword literal, then the tail. -/
def tryIdxKeyword (kw : String) (l : List Char) : Option (String × String × List Char) :=
  match matchLit kw.data l with
  | some r =>
    match matchKeyTail r with
    | some (nm, rest) => some (kw, nm, rest)
    | none => none
  | none => none

/-- The regex `(KEY|INDEX|UNIQUE KEY)\s+` + backquoted name, tried at
one position, branches in the source's order. -/
def matchIdxAt (l : List Char) : Option (String × String × List Char) :=
  match tryIdxKeyword "KEY" l with
  | some r => some r
  | none =>
    match tryIdxKeyword "INDEX" l with
    | some r => some r
    | none => tryIdxKeyword "UNIQUE KEY" l

/-- `ReplaceAllStringFunc` for the index regex: at a match the source
keeps a `PRIMARY KEY` guard (dead, since the captured keyword is one of
KEY/INDEX/UNIQUE KEY) and otherwise rewrites to
`<keyword> `+backquote+`<name>_<suffix>`+backquote. -/
def idxPassAux (suffix : String) : Nat → List Char → List Char
  | 0, l => l
  | _ + 1, [] => []
  | fuel + 1, c :: cs =>
    match matchIdxAt (c :: cs) with
    | some (indexType, indexName, rest) =>
      let matched := (c :: cs).take ((c :: cs).length - rest.length)
      let rep :=
        if upperStr indexType == "PRIMARY KEY" then matched
        else (indexType ++ " " ++ String.mk [backquoteChar] ++ indexName ++ "_" ++ suffix
               ++ String.mk [backquoteChar]).data
      rep ++ idxPassAux suffix fuel rest
    | none => c :: idxPassAux suffix fuel cs

def idxPass (suffix : String) (s : String) : String :=
  String.mk (idxPassAux suffix s.data.length s.data)

/-- The regex `CONSTRAINT\s+` + backquoted name + `\s+FOREIGN KEY`,
tried at one position. Returns the constraint identifier. -/
def matchFkAt (l : List Char) : Option (String × List Char) :=
  match matchLit "CONSTRAINT".data l with
  | none => none
  | some r1 =>
    match matchWS1 r1 with
    | none => none
    | some r2 =>
      match matchName r2 with
      | none => none
      | some (nm, r3) =>
        match matchWS1 r3 with
        | none => none
        | some r4 =>
          match matchLit "FOREIGN KEY".data r4 with
          | none => none
          | some r5 => some (nm, r5)

/-- `ReplaceAllStringFunc` for the foreign-key regex. -/
def fkPassAux (suffix : String) : Nat → List Char → List Char
  | 0, l => l
  | _ + 1, [] => []
  | fuel + 1, c :: cs =>
    match matchFkAt (c :: cs) with
    | some (constraintName, rest) =>
      ("CONSTRAINT " ++ String.mk [backquoteChar] ++ constraintName ++ "_" ++ suffix
        ++ String.mk [backquoteChar] ++ " FOREIGN KEY").data ++ fkPassAux suffix fuel rest
    | none => c :: fkPassAux suffix fuel cs

def fkPass (suffix : String) (s : String) : String :=
  String.mk (fkPassAux suffix s.data.length s.data)

/-- `strings.Replace(s, pat, rep, 1)`: replace the first occurrence. -/
def replaceOnceAux (pat rep : List Char) : Nat → List Char → List Char
  | 0, l => l
  | _ + 1, [] => []
  | fuel + 1, c :: cs =>
    match matchLit pat (c :: cs) with
    | some rest => rep ++ rest
    | none => c :: replaceOnceAux pat rep fuel cs

def goReplaceOnce (s pat rep : String) : String :=
  String.mk (replaceOnceAux pat.data rep.data s.data.length s.data)

/-- Does the index regex match anywhere in the text? -/
def hasIdxMatch : List Char → Bool
  | [] => (matchIdxAt []).isSome
  | c :: cs => (matchIdxAt (c :: cs)).isSome || hasIdxMatch cs

/-- Does the foreign-key regex match anywhere in the text? -/
def hasFkMatch : List Char → Bool
  | [] => (matchFkAt []).isSome
  | c :: cs => (matchFkAt (c :: cs)).isSome || hasFkMatch cs

/-- The literal `CREATE TABLE` + backquoted name that
`modifyCreateStatement` replaces. -/
def createTablePat (name : String) : String :=
  "CREATE TABLE " ++ String.mk [backquoteChar] ++ name ++ String.mk [backquoteChar]

/-- `modifyCreateStatement`: replace the table name (first occurrence,
once), then rewrite index identifiers, then foreign-key constraint
identifiers. -/
def modifyCreateStatement (createStmt oldName newName suffix : String) : String :=
  let s1 := goReplaceOnce createStmt (createTablePat oldName) (createTablePat newName)
  let s2 := idxPass suffix s1
  let s3 := fkPass suffix s2
  s3

theorem matchLit_eq_append (pat : List Char) :
    ∀ l r, matchLit pat l = some r → l = pat ++ r := by
  induction pat with
  | nil =>
    intro l r h
    simp only [matchLit, Option.some.injEq] at h
    simp [h]
  | cons p ps ih =>
    intro l r h
    cases l with
    | nil => simp [matchLit] at h
    | cons c cs =>
      simp only [matchLit] at h
      by_cases hpc : (p == c) = true
      · rw [if_pos hpc] at h
        have hp : p = c := eq_of_beq hpc
        subst hp
        rw [List.cons_append, ih cs r h]
      · rw [if_neg hpc] at h
        cases h

theorem idxPassAux_id (suffix : String) (fuel : Nat) :
    ∀ l, hasIdxMatch l = false → idxPassAux suffix fuel l = l := by
  induction fuel with
  | zero => intro l _; rfl
  | succ fuel ih =>
    intro l h
    cases l with
    | nil => rfl
    | cons c cs =>
      rw [hasIdxMatch] at h
      cases hm : matchIdxAt (c :: cs) with
      | some v => rw [hm] at h; simp at h
      | none =>
        rw [hm] at h
        simp only [Option.isSome_none, Bool.false_or] at h
        simp only [idxPassAux, hm]
        rw [ih cs h]

theorem fkPassAux_id (suffix : String) (fuel : Nat) :
    ∀ l, hasFkMatch l = false → fkPassAux suffix fuel l = l := by
  induction fuel with
  | zero => intro l _; rfl
  | succ fuel ih =>
    intro l h
    cases l with
    | nil => rfl
    | cons c cs =>
      rw [hasFkMatch] at h
      cases hm : matchFkAt (c :: cs) with
      | some v => rw [hm] at h; simp at h
      | none =>
        rw [hm] at h
        simp only [Option.isSome_none, Bool.false_or] at h
        simp only [fkPassAux, hm]
        rw [ih cs h]

theorem replaceOnceAux_id (pat rep : List Char) (fuel : Nat) :
    ∀ l, containsSub pat l = false → replaceOnceAux pat rep fuel l = l := by
  induction fuel with
  | zero => intro l _; rfl
  | succ fuel ih =>
    intro l h
    cases l with
    | nil => rfl
    | cons c cs =>
      rw [containsSub] at h
      cases hm : matchLit pat (c :: cs) with
      | some v => rw [hm] at h; simp at h
      | none =>
        rw [hm] at h
        simp only [Option.isSome_none, Bool.false_or] at h
        simp only [replaceOnceAux, hm]
        rw [ih cs h]

theorem replaceOnceAux_decomp (pat rep : List Char) (hpat : pat ≠ []) :
    ∀ l, containsSub pat l = true →
      ∃ a b, l = a ++ pat ++ b ∧ replaceOnceAux pat rep l.length l = a ++ rep ++ b := by
  intro l
  induction l with
  | nil =>
    intro h
    rw [containsSub] at h
    cases pat with
    | nil => exact absurd rfl hpat
    | cons p ps => simp [matchLit] at h
  | cons c cs ih =>
    intro h
    rw [containsSub] at h
    cases hm : matchLit pat (c :: cs) with
    | some rest =>
      refine ⟨[], rest, ?_, ?_⟩
      · simpa using matchLit_eq_append pat _ _ hm
      · simp only [List.length_cons, replaceOnceAux, hm, List.nil_append]
    | none =>
      rw [hm] at h
      simp only [Option.isSome_none, Bool.false_or] at h
      obtain ⟨a, b, hl, hr⟩ := ih h
      refine ⟨c :: a, b, ?_, ?_⟩
      · rw [hl]; simp
      · simp only [List.length_cons, replaceOnceAux, hm, hr, List.cons_append]

/-- C7 (amended): when neither the index-declaration pattern
(KEY/INDEX/UNIQUE KEY followed by whitespace and a backquoted name) nor
the foreign-key pattern occurs anywhere in the name-replaced text — as a
textual pattern, so also not inside quoted defaults or comments, a
strictly stronger condition than containing no index/constraint
declaration — `modifyCreateStatement` returns the input with only the
table name changed: the first occurrence of `CREATE TABLE` + backquoted
old name is replaced, the rest of the text is untouched, and when the
pattern does not occur at all the text is returned verbatim. -/
theorem modifyCreateStatement_name_only (createStmt oldName newName suffix : String)
    (h1 : hasIdxMatch (goReplaceOnce createStmt (createTablePat oldName)
            (createTablePat newName)).data = false)
    (h2 : hasFkMatch (goReplaceOnce createStmt (createTablePat oldName)
            (createTablePat newName)).data = false) :
    modifyCreateStatement createStmt oldName newName suffix =
      goReplaceOnce createStmt (createTablePat oldName) (createTablePat newName) ∧
    (containsSub (createTablePat oldName).data createStmt.data = false →
      goReplaceOnce createStmt (createTablePat oldName) (createTablePat newName) =
        createStmt) ∧
    (containsSub (createTablePat oldName).data createStmt.data = true →
      ∃ a b : List Char,
        createStmt.data = a ++ (createTablePat oldName).data ++ b ∧
        (goReplaceOnce createStmt (createTablePat oldName)
          (createTablePat newName)).data = a ++ (createTablePat newName).data ++ b) := by
  refine ⟨?_, ?_, ?_⟩
  · have e1 : idxPass suffix
        (goReplaceOnce createStmt (createTablePat oldName) (createTablePat newName)) =
        goReplaceOnce createStmt (createTablePat oldName) (createTablePat newName) := by
      unfold idxPass
      rw [idxPassAux_id _ _ _ h1]
    have e2 : fkPass suffix
        (goReplaceOnce createStmt (createTablePat oldName) (createTablePat newName)) =
        goReplaceOnce createStmt (createTablePat oldName) (createTablePat newName) := by
      unfold fkPass
      rw [fkPassAux_id _ _ _ h2]
    unfold modifyCreateStatement
    simp only []
    rw [e1, e2]
  · intro h
    unfold goReplaceOnce
    rw [replaceOnceAux_id _ _ _ _ h]
  · intro h
    have hpat : (createTablePat oldName).data ≠ [] := by
      simp [createTablePat]
    obtain ⟨a, b, hl, hr⟩ :=
      replaceOnceAux_decomp (createTablePat oldName).data (createTablePat newName).data
        hpat createStmt.data h
    exact ⟨a, b, hl, hr⟩

/-- A structural definition with no secondary-index, unique-index or
foreign-key constraint declaration, whose single column carries a quoted
default that happens to contain the text `KEY ` followed by a backquoted
word: `CREATE TABLE `t` (`c` varchar(10) DEFAULT 'KEY `k`')`. -/
def defaultTrapStmt : String :=
  "CREATE TABLE " ++ String.mk [backquoteChar] ++ "t" ++ String.mk [backquoteChar] ++
  " (" ++ String.mk [backquoteChar] ++ "c" ++ String.mk [backquoteChar] ++
  " varchar(10) DEFAULT " ++ String.mk [singleQuoteChar] ++ "KEY " ++
  String.mk [backquoteChar] ++ "k" ++ String.mk [backquoteChar] ++
  String.mk [singleQuoteChar] ++ ")"

/-- What `modifyCreateStatement` actually returns on `defaultTrapStmt`:
the table name is replaced, but the column default is also rewritten
(`'KEY `k`'` becomes `'KEY `k_x`'`). -/
def defaultTrapRewritten : String :=
  "CREATE TABLE " ++ String.mk [backquoteChar] ++ "t_x" ++ String.mk [backquoteChar] ++
  " (" ++ String.mk [backquoteChar] ++ "c" ++ String.mk [backquoteChar] ++
  " varchar(10) DEFAULT " ++ String.mk [singleQuoteChar] ++ "KEY " ++
  String.mk [backquoteChar] ++ "k_x" ++ String.mk [backquoteChar] ++
  String.mk [singleQuoteChar] ++ ")"

/-- C7 counterexample: on a structural definition containing no
secondary-index, unique-index or foreign-key constraint declaration,
`modifyCreateStatement` does not return the text with only the table
name replaced: the index-pattern scan also fires inside the quoted
column default and rewrites it, altering a column definition. -/
theorem modifyCreateStatement_alters_quoted_default :
    modifyCreateStatement defaultTrapStmt "t" "t_x" "x" = defaultTrapRewritten ∧
    modifyCreateStatement defaultTrapStmt "t" "t_x" "x" ≠
      goReplaceOnce defaultTrapStmt (createTablePat "t") (createTablePat "t_x") := by
  decide

theorem modifyCreateStatement_name_only_witness :
    hasIdxMatch (goReplaceOnce
        ("CREATE TABLE " ++ String.mk [backquoteChar] ++ "t" ++ String.mk [backquoteChar] ++
         " (" ++ String.mk [backquoteChar] ++ "id" ++ String.mk [backquoteChar] ++
         " int NOT NULL)")
        (createTablePat "t") (createTablePat "t_x")).data = false ∧
    hasFkMatch (goReplaceOnce
        ("CREATE TABLE " ++ String.mk [backquoteChar] ++ "t" ++ String.mk [backquoteChar] ++
         " (" ++ String.mk [backquoteChar] ++ "id" ++ String.mk [backquoteChar] ++
         " int NOT NULL)")
        (createTablePat "t") (createTablePat "t_x")).data = false ∧
    modifyCreateStatement
        ("CREATE TABLE " ++ String.mk [backquoteChar] ++ "t" ++ String.mk [backquoteChar] ++
         " (" ++ String.mk [backquoteChar] ++ "id" ++ String.mk [backquoteChar] ++
         " int NOT NULL)") "t" "t_x" "x" =
      goReplaceOnce
        ("CREATE TABLE " ++ String.mk [backquoteChar] ++ "t" ++ String.mk [backquoteChar] ++
         " (" ++ String.mk [backquoteChar] ++ "id" ++ String.mk [backquoteChar] ++
         " int NOT NULL)")
        (createTablePat "t") (createTablePat "t_x") :=
  ⟨by decide, by decide,
    (modifyCreateStatement_name_only
      ("CREATE TABLE " ++ String.mk [backquoteChar] ++ "t" ++ String.mk [backquoteChar] ++
       " (" ++ String.mk [backquoteChar] ++ "id" ++ String.mk [backquoteChar] ++
       " int NOT NULL)") "t" "t_x" "x" (by decide) (by decide)).1⟩

/-! ## DelimitedExporter (`exportTableToCSV`) -/

/-- One fetched row of an export: the dynamic values of its columns. -/
abbrev CsvRow := List GoValue

/-- The fixed page size of the delimited exporter. -/
def csvBatchSize : Nat := 5000

/-- The page fetched by `SELECT * FROM t LIMIT 5000 OFFSET offset`
against an unchanging table. -/
def csvPage (rows : List CsvRow) (offset : Nat) : List CsvRow :=
  (rows.drop offset).take csvBatchSize

/-- The paging loop of `exportTableToCSV` over a table that does not
change during the export: the loop stops after the first page shorter
than the batch size, otherwise advances the offset by the batch size. -/
def csvPages (rows : List CsvRow) (offset : Nat) : List (List CsvRow) :=
  if h : (csvPage rows offset).length < csvBatchSize then [csvPage rows offset]
  else csvPage rows offset :: csvPages rows (offset + csvBatchSize)
termination_by rows.length - offset
decreasing_by
  simp only [csvPage, List.length_take, List.length_drop, csvBatchSize] at h ⊢
  omega

/-- One written record: the row's fields formatted by
`formatCSVValue`. -/
def csvRecordOf (r : CsvRow) : List String := r.map formatCSVValue

/-- The records `exportTableToCSV` writes: the header row of column
names, then, page by page, one record per fetched row. Each record is
one line of the file. -/
def exportTableToCSVLines (columns : List String) (rows : List CsvRow) :
    List (List String) :=
  columns :: ((csvPages rows 0).map (List.map csvRecordOf)).flatten

theorem csvPages_flatten (rows : List CsvRow) (offset : Nat) :
    (csvPages rows offset).flatten = rows.drop offset := by
  rw [csvPages]
  by_cases h : (csvPage rows offset).length < csvBatchSize
  · rw [dif_pos h]
    have hle : (rows.drop offset).length ≤ csvBatchSize := by
      simp only [csvPage, List.length_take] at h
      omega
    simp [csvPage, List.take_of_length_le hle]
  · rw [dif_neg h]
    rw [List.flatten_cons, csvPages_flatten rows (offset + csvBatchSize)]
    have hdd : rows.drop (offset + csvBatchSize) =
        (rows.drop offset).drop csvBatchSize := by
      rw [List.drop_drop]
      try congr 1
      try omega
    rw [csvPage, hdd, List.take_append_drop]
termination_by rows.length - offset
decreasing_by
  simp only [csvPage, List.length_take, List.length_drop, csvBatchSize] at h ⊢
  omega

theorem csvPages_page_le (rows : List CsvRow) (offset : Nat) :
    ∀ p ∈ csvPages rows offset, p.length ≤ csvBatchSize := by
  intro p hp
  rw [csvPages] at hp
  by_cases h : (csvPage rows offset).length < csvBatchSize
  · rw [dif_pos h] at hp
    rcases List.mem_singleton.1 hp with rfl
    exact Nat.le_of_lt h
  · rw [dif_neg h] at hp
    rcases List.mem_cons.1 hp with rfl | hp'
    · exact List.length_take_le _ _
    · exact csvPages_page_le rows (offset + csvBatchSize) p hp'
termination_by rows.length - offset
decreasing_by
  simp only [csvPage, List.length_take, List.length_drop, csvBatchSize] at h ⊢
  omega

/-- C9: over a table of N rows that does not change during the export,
the delimited exporter writes exactly N+1 records — the header of
column names followed by one record per row, in order, each row exactly
once — the pages it fetches concatenate to exactly the table, every
page holds at most 5000 rows, and the paging loop is total. -/
theorem exportTableToCSV_writes_header_and_each_row_once
    (columns : List String) (rows : List CsvRow) :
    exportTableToCSVLines columns rows = columns :: rows.map csvRecordOf ∧
    (exportTableToCSVLines columns rows).length = rows.length + 1 ∧
    (csvPages rows 0).flatten = rows ∧
    (csvPages rows 0).all (fun p => decide (p.length ≤ csvBatchSize)) = true := by
  have hflat : (csvPages rows 0).flatten = rows := by
    simpa using csvPages_flatten rows 0
  have hmap : exportTableToCSVLines columns rows = columns :: rows.map csvRecordOf := by
    unfold exportTableToCSVLines
    rw [← List.map_flatten, hflat]
  refine ⟨hmap, by rw [hmap]; simp, hflat, ?_⟩
  rw [List.all_eq_true]
  intro p hp
  rw [decide_eq_true_eq]
  exact csvPages_page_le rows 0 p hp

end DbArchiving
